import Mathlib

/-!
Verification of the CSV split/merge utility.

The splitter (csv-splitter.py) streams a CSV file row by row, accumulating
rows into an open chunk; every 100 accumulated rows it writes the chunk to a
temporary file to probe its on-disk size and seals the chunk when the probe
size reaches the target.  The on-disk size of a prospective chunk is
abstracted as a function parameter, so every theorem quantifying over it
holds for the real byte-size function in particular.

The merger (csv_merger.py) enumerates CSV blobs under a base path, filters
them by a subfolder allow-list, classifies them by a case-insensitive
marker substring over their basename, and concatenates each group, dropping
previously injected bookkeeping columns and optionally re-injecting fresh
ones.

String primitives are modelled structurally over the character list of a
string, matching the character-level semantics of the Python string
operations used by the source.
-/

/-! ## String primitives -/

/-- Python s.startswith(pre): pre is a character-level prefix of s. -/
def strStartsWith (s pre : String) : Bool := pre.data.isPrefixOf s.data

/-- Python s[n:]: drop the first n characters. -/
def strDrop (s : String) (n : Nat) : String := ⟨s.data.drop n⟩

/-- Python c in s for a single character. -/
def strHasChar (s : String) (c : Char) : Bool := s.data.contains c

/-- Python s.lower(), character by character. -/
def strToLower (s : String) : String := ⟨s.data.map Char.toLower⟩

/-- Python str.strip('/'): remove leading and trailing '/' characters. -/
def stripSlashes (s : String) : String :=
  ⟨((s.data.dropWhile (· == '/')).reverse.dropWhile (· == '/')).reverse⟩

/-- os.path.basename: the part of a path after the last '/'. -/
def basename (s : String) : String := ⟨(s.data.reverse.takeWhile (· != '/')).reverse⟩

/-! ## Splitter model (csv-splitter.py) -/

/-- A data row of a CSV table: an ordered list of field values. -/
abbrev Row := List String

/-- State of the size-probe split loop in split_csv_by_size: the open chunk
being accumulated, the next chunk number, and the sealed chunks so far
(each with its chunk number, in seal order). -/
structure SplitState where
  currentChunk : List Row
  chunkNumber : Nat
  chunks : List (Nat × List Row)
deriving Repr, DecidableEq

/-- Initial state of the split loop: empty open chunk, chunk number 1,
no sealed chunks. -/
def initSplitState : SplitState := { currentChunk := [], chunkNumber := 1, chunks := [] }

/-- One iteration of the for-loop of split_csv_by_size (lines 89-116): the
row is appended to the open chunk; at every 100th accumulated row the chunk
is written to a temporary probe file whose on-disk byte size is fsize of
the accumulated rows; if that size is at or above the target byte size and
the chunk holds at least 100 rows it is sealed under the current chunk
number, otherwise the probe file is discarded and accumulation continues. -/
def splitStep (fsize : List Row → Nat) (targetBytes : ℚ) (s : SplitState) (row : Row) :
    SplitState :=
  let cur := s.currentChunk ++ [row]
  if cur.length % 100 = 0 then
    if targetBytes ≤ (fsize cur : ℚ) ∧ 100 ≤ cur.length then
      { currentChunk := [], chunkNumber := s.chunkNumber + 1,
        chunks := s.chunks ++ [(s.chunkNumber, cur)] }
    else
      { s with currentChunk := cur }
  else
    { s with currentChunk := cur }

/-- The chunks sealed by the size test during a run of split_csv_by_size
over the given data rows: the sealed chunks of the loop state after the
last row, before the end-of-stream flush. -/
def sizeSealedChunks (fsize : List Row → Nat) (targetBytes : ℚ) (rows : List Row) :
    List (Nat × List Row) :=
  (rows.foldl (splitStep fsize targetBytes) initSplitState).chunks

/-- The full split loop of split_csv_by_size over the data rows (header
excluded): run the per-row loop, then seal any remaining accumulated rows
as a final chunk regardless of size (lines 118-127). -/
def runSplit (fsize : List Row → Nat) (targetBytes : ℚ) (rows : List Row) :
    List (Nat × List Row) :=
  let s := rows.foldl (splitStep fsize targetBytes) initSplitState
  if s.currentChunk = [] then s.chunks else s.chunks ++ [(s.chunkNumber, s.currentChunk)]

/-- Python int() applied to a rational: truncation toward zero. -/
def pyTrunc (q : ℚ) : ℤ := if 0 ≤ q then q.floor else q.ceil

/-- estimate_rows_per_chunk (lines 10-39): counts the data rows of the file
(all rows after the header, one full pass mimicking the generator sum),
returns 1 if there are none, else max(1, int(totalRows / totalSizeMb *
targetSizeMb)).  On a file with no rows at all, next(reader) raises
StopIteration, modelled as an error. -/
def estimate_rows_per_chunk (totalSizeMb targetSizeMb : ℚ) (fileRows : List Row) :
    Except String ℤ :=
  match fileRows with
  | [] => .error "StopIteration"
  | _header :: dataRows =>
    let totalRows : Nat := dataRows.foldl (fun n _ => n + 1) 0
    if totalRows = 0 then .ok 1
    else .ok (max 1 (pyTrunc ((totalRows : ℚ) / totalSizeMb * targetSizeMb)))

/-- split_csv_by_size (lines 41-138) on the file's rows: first calls
estimate_rows_per_chunk (line 71, whose StopIteration on a file with no
rows at all aborts the run), then reads the header — where an empty file
would raise ValueError (line 85) — then runs the split loop over the data
rows with target byte size chunk_size_mb * 1024 * 1024.  Returns the
sealed chunks with their numbers. -/
def split_csv_by_size (fsize : List Row → Nat) (totalSizeMb chunkSizeMb : ℚ)
    (fileRows : List Row) : Except String (List (Nat × List Row)) :=
  match estimate_rows_per_chunk totalSizeMb chunkSizeMb fileRows with
  | .error e => .error e
  | .ok _estimatedRows =>
    match fileRows with
    | [] => .error "CSV file is empty"
    | _header :: dataRows => .ok (runSplit fsize (chunkSizeMb * 1024 * 1024) dataRows)

/-- Modelled from the spec (§4.1): the estimator the spec describes, which
rounds rather than truncates: max(1, round(totalRows / totalSizeInUnits *
targetSize)), and 1 when totalRows = 0. -/
def estimateSpecRound (totalSizeMb targetSizeMb : ℚ) (totalRows : Nat) : ℤ :=
  if totalRows = 0 then 1
  else max 1 (round ((totalRows : ℚ) / totalSizeMb * targetSizeMb))

/-! ## Merger model (csv_merger.py) -/

/-- The bookkeeping (metadata) column names dropped before aggregation
(csv_merger.py line 238). -/
def metadataColumns : List String :=
  ["source_file", "source_path", "file_size", "merge_timestamp", "container_name"]

/-- A dataframe: ordered column names and rows of field values aligned with
the columns. -/
structure Df where
  cols : List String
  rows : List (List String)
deriving Repr, DecidableEq

/-- df.drop(columns=[...]): remove every column whose name is in the list,
and the corresponding field of every row. -/
def dropCols (df : Df) (names : List String) : Df :=
  { cols := df.cols.filter (fun c => decide (c ∉ names)),
    rows := df.rows.map (fun r =>
      ((df.cols.zip r).filter (fun p => decide (p.1 ∉ names))).map Prod.snd) }

/-- df[name] = v with a scalar value: if the column exists its values are
all replaced by v, otherwise a new column holding v in every row is
appended. -/
def assignConst (df : Df) (name v : String) : Df :=
  if name ∈ df.cols then
    { cols := df.cols,
      rows := df.rows.map (fun r =>
        (df.cols.zip r).map (fun p => if p.1 = name then v else p.2)) }
  else
    { cols := df.cols ++ [name], rows := df.rows.map (fun r => r ++ [v]) }

/-- The per-file bookkeeping adjustment of merge_blobs (lines 237-245):
drop any existing metadata columns, then, only if metadata injection is
enabled, assign source_file = basename of the blob name, source_path = the
blob name, container_name = the container's name. -/
def adjustBookkeeping (addMeta : Bool) (blobName containerName : String) (df : Df) : Df :=
  let d := dropCols df metadataColumns
  if addMeta then
    assignConst (assignConst (assignConst d "source_file" (basename blobName))
      "source_path" blobName) "container_name" containerName
  else d

/-- Modelled from the spec (§4.6, glossary): the path of a file relative to
the scope root (the base path): the blob name with the base-path prefix
removed when it carries that prefix. -/
def relToScopeRoot (basePath name : String) : String :=
  if strStartsWith name basePath then strDrop name basePath.data.length else name

/-- First-seen-order union of the column names of a list of dataframes,
as pd.concat computes the result's columns. -/
def colsUnion (dfs : List Df) : List String :=
  dfs.foldl (fun acc d => acc ++ d.cols.filter (fun c => decide (c ∉ acc))) []

/-- The value of column c in a row r aligned with cols, if the row's table
has that column. -/
def rowLookup (cols : List String) (r : List String) (c : String) : Option String :=
  ((cols.zip r).find? (fun p => p.1 == c)).map Prod.snd

/-- Reindex a row from its own columns to the union columns, empty for
columns the row's table lacks (pd.concat's missing-field alignment). -/
def alignRow (ucols cols : List String) (r : List String) : List String :=
  ucols.map (fun c => (rowLookup cols r c).getD "")

/-- pd.concat(dfs, ignore_index=True): the union of the columns, and the
rows of every table in order, each reindexed to the union columns. -/
def pdConcat (dfs : List Df) : Df :=
  { cols := colsUnion dfs,
    rows := (dfs.map (fun d => d.rows.map (alignRow (colsUnion dfs) d.cols))).flatten }

/-- The read outcome of one blob: its name paired with either the parsed
dataframe or the error message of a failed download/parse. -/
abbrev BlobRead := String × Except String Df

/-- One iteration of the merge_blobs loop (lines 228-253): on a successful
read the adjusted dataframe is appended to the merged data and the name to
the successes; on a failure the name and error are appended to the failures
and the loop continues with the next file. -/
def mergeStep (addMeta : Bool) (containerName : String)
    (acc : List Df × List String × List (String × String)) (b : BlobRead) :
    List Df × List String × List (String × String) :=
  match b.2 with
  | .ok df =>
    (acc.1 ++ [adjustBookkeeping addMeta b.1 containerName df], acc.2.1 ++ [b.1], acc.2.2)
  | .error e => (acc.1, acc.2.1, acc.2.2 ++ [(b.1, e)])

/-- merge_blobs (lines 218-291) over the read outcomes of a group's blobs:
processes every file, isolating failures, then concatenates the successful
tables (none when no file succeeded).  Returns the aggregate, the
successful file names and the failures. -/
def merge_blobs (addMeta : Bool) (containerName : String) (blobs : List BlobRead) :
    Option Df × List String × List (String × String) :=
  let acc := blobs.foldl (mergeStep addMeta containerName) ([], [], [])
  (if acc.1.isEmpty then none else some (pdConcat acc.1), acc.2.1, acc.2.2)

/-- The adjusted dataframes of the successfully read blobs, in enumeration
order. -/
def okAdjusted (addMeta : Bool) (containerName : String) (blobs : List BlobRead) : List Df :=
  blobs.filterMap (fun p => match p.2 with
    | .ok df => some (adjustBookkeeping addMeta p.1 containerName df)
    | .error _ => none)

/-- The names of the successfully read blobs, in enumeration order. -/
def okNames (blobs : List BlobRead) : List String :=
  blobs.filterMap (fun p => match p.2 with
    | .ok _ => some p.1
    | .error _ => none)

/-- The failed blobs with their error messages, in enumeration order. -/
def failedFiles (blobs : List BlobRead) : List (String × String) :=
  blobs.filterMap (fun p => match p.2 with
    | .ok _ => none
    | .error e => some (p.1, e))

/-- The classifier test (lines 180-185): the lowercased marker pattern is a
substring of the lowercased basename of the blob name. -/
def isTruthFile (pat name : String) : Bool :=
  decide (List.IsInfix (strToLower pat).data (strToLower (basename name)).data)

/-- The classification loop (lines 177-185): each file goes to the truth
group when the marker matches its basename case-insensitively, else to the
other group, preserving enumeration order. -/
def classify (pat : String) (files : List String) : List String × List String :=
  files.foldl
    (fun acc n => if isTruthFile pat n then (acc.1 ++ [n], acc.2) else (acc.1, acc.2 ++ [n]))
    ([], [])

/-- The relative path of a blob under the base path (lines 152-156): the
base-path prefix is removed when the base path is nonempty and the name
starts with it. -/
def relPath (basePath name : String) : String :=
  if basePath ≠ "" ∧ strStartsWith name basePath then strDrop name basePath.data.length
  else name

/-- The subfolder filter of merge_csv_files_by_pattern (lines 141-168):
with no allow-list every CSV blob is kept; with an allow-list a blob is
kept when includeRoot is set and its relative path has no '/' left, or when
its relative path starts with a normalized allow-listed subfolder name
followed by '/'. -/
def blobKept (basePath : String) (subfolders : Option (List String)) (includeRoot : Bool)
    (name : String) : Bool :=
  match subfolders with
  | none => true
  | some subs =>
    let rel := relPath basePath name
    if includeRoot && !strHasChar rel '/' then true
    else subs.any (fun sub => strStartsWith rel (stripSlashes sub ++ "/"))

/-- The filtered blob list (lines 141-168): the enumerated CSV blobs that
pass the subfolder filter, in enumeration order. -/
def filterBlobs (basePath : String) (subfolders : Option (List String)) (includeRoot : Bool)
    (csvBlobs : List String) : List String :=
  csvBlobs.filter (blobKept basePath subfolders includeRoot)

/-! ## Splitter lemmas -/

lemma splitStep_flatten (fsize : List Row → Nat) (t : ℚ) (s : SplitState) (row : Row) :
    ((splitStep fsize t s row).chunks.map Prod.snd).flatten
        ++ (splitStep fsize t s row).currentChunk
      = ((s.chunks.map Prod.snd).flatten ++ s.currentChunk) ++ [row] := by
  simp only [splitStep]
  split
  · split
    · simp [List.flatten_append, List.append_assoc]
    · simp [List.append_assoc]
  · simp [List.append_assoc]

lemma foldl_splitStep_flatten (fsize : List Row → Nat) (t : ℚ) :
    ∀ (rows : List Row) (s : SplitState),
      ((rows.foldl (splitStep fsize t) s).chunks.map Prod.snd).flatten
          ++ (rows.foldl (splitStep fsize t) s).currentChunk
        = ((s.chunks.map Prod.snd).flatten ++ s.currentChunk) ++ rows
  | [], s => by simp
  | row :: rows, s => by
    rw [List.foldl_cons, foldl_splitStep_flatten fsize t rows, splitStep_flatten]
    simp [List.append_assoc]

lemma splitStep_numbering (fsize : List Row → Nat) (t : ℚ) (s : SplitState) (row : Row)
    (h1 : s.chunks.map Prod.fst = List.range' 1 s.chunks.length)
    (h2 : s.chunkNumber = s.chunks.length + 1) :
    (splitStep fsize t s row).chunks.map Prod.fst
        = List.range' 1 (splitStep fsize t s row).chunks.length ∧
    (splitStep fsize t s row).chunkNumber = (splitStep fsize t s row).chunks.length + 1 := by
  simp only [splitStep]
  split
  · split
    · refine ⟨?_, by simp [h2]⟩
      simp only [List.map_append, List.length_append, List.map_cons, List.map_nil,
        List.length_cons, List.length_nil]
      rw [h1, h2, List.range'_concat]
      simp [Nat.add_comm]
    · exact ⟨h1, h2⟩
  · exact ⟨h1, h2⟩

lemma foldl_splitStep_numbering (fsize : List Row → Nat) (t : ℚ) :
    ∀ (rows : List Row) (s : SplitState),
      s.chunks.map Prod.fst = List.range' 1 s.chunks.length →
      s.chunkNumber = s.chunks.length + 1 →
      (rows.foldl (splitStep fsize t) s).chunks.map Prod.fst
          = List.range' 1 (rows.foldl (splitStep fsize t) s).chunks.length ∧
      (rows.foldl (splitStep fsize t) s).chunkNumber
          = (rows.foldl (splitStep fsize t) s).chunks.length + 1
  | [], _, h1, h2 => ⟨h1, h2⟩
  | row :: rows, s, h1, h2 => by
    rw [List.foldl_cons]
    have h := splitStep_numbering fsize t s row h1 h2
    exact foldl_splitStep_numbering fsize t rows _ h.1 h.2

lemma splitStep_chunkLen (fsize : List Row → Nat) (t : ℚ) (s : SplitState) (row : Row)
    (h : ∀ c ∈ s.chunks, c.2.length % 100 = 0 ∧ 0 < c.2.length) :
    ∀ c ∈ (splitStep fsize t s row).chunks, c.2.length % 100 = 0 ∧ 0 < c.2.length := by
  simp only [splitStep]
  split
  · split
    · rename_i hmod hseal
      intro c hc
      rcases List.mem_append.mp hc with hc | hc
      · exact h c hc
      · rcases List.mem_singleton.mp hc with rfl
        refine ⟨hmod, ?_⟩
        simp only [List.length_append, List.length_cons, List.length_nil]
        omega
    · exact h
  · exact h

lemma foldl_splitStep_chunkLen (fsize : List Row → Nat) (t : ℚ) :
    ∀ (rows : List Row) (s : SplitState),
      (∀ c ∈ s.chunks, c.2.length % 100 = 0 ∧ 0 < c.2.length) →
      ∀ c ∈ (rows.foldl (splitStep fsize t) s).chunks, c.2.length % 100 = 0 ∧ 0 < c.2.length
  | [], _, h => h
  | row :: rows, s, h => by
    rw [List.foldl_cons]
    exact foldl_splitStep_chunkLen fsize t rows _ (splitStep_chunkLen fsize t s row h)

lemma runSplit_flatten (fsize : List Row → Nat) (t : ℚ) (rows : List Row) :
    ((runSplit fsize t rows).map Prod.snd).flatten = rows := by
  have h := foldl_splitStep_flatten fsize t rows initSplitState
  simp only [runSplit]
  set st := rows.foldl (splitStep fsize t) initSplitState with hst
  simp only [initSplitState, List.map_nil, List.flatten_nil, List.nil_append] at h
  split
  · rename_i hcc
    rw [hcc, List.append_nil] at h
    exact h
  · simpa [List.flatten_append] using h

lemma runSplit_numbering (fsize : List Row → Nat) (t : ℚ) (rows : List Row) :
    (runSplit fsize t rows).map Prod.fst
      = List.range' 1 (runSplit fsize t rows).length := by
  have h := foldl_splitStep_numbering fsize t rows initSplitState (by simp [initSplitState])
    (by simp [initSplitState])
  simp only [runSplit]
  set st := rows.foldl (splitStep fsize t) initSplitState with hst
  split
  · exact h.1
  · simp only [List.map_append, List.length_append, List.map_cons, List.map_nil,
      List.length_cons, List.length_nil]
    rw [h.1, h.2, List.range'_concat]
    simp [Nat.add_comm]

lemma foldl_count_eq_length {α : Type} : ∀ (l : List α) (n : Nat),
    l.foldl (fun m _ => m + 1) n = n + l.length
  | [], n => by simp
  | _ :: l, n => by
    rw [List.foldl_cons, foldl_count_eq_length l (n + 1)]
    simp only [List.length_cons]
    omega

/-! ## Claims about the splitter -/

/-- C1: for every size-probe split run that completes, the data rows of the
produced chunks, concatenated in chunk-number order (the chunk numbers are
exactly 1, 2, ... in list order), equal the source file's data rows exactly
once each in original order, and any rows still accumulated at end of
stream are sealed as a final chunk regardless of size (runSplit's flush). -/
theorem size_probe_split_completeness (fsize : List Row → Nat)
    (totalSizeMb chunkSizeMb : ℚ) (header : Row) (rows : List Row) :
    split_csv_by_size fsize totalSizeMb chunkSizeMb (header :: rows)
        = Except.ok (runSplit fsize (chunkSizeMb * 1024 * 1024) rows) ∧
    ((runSplit fsize (chunkSizeMb * 1024 * 1024) rows).map Prod.snd).flatten = rows ∧
    (runSplit fsize (chunkSizeMb * 1024 * 1024) rows).map Prod.fst
        = List.range' 1 (runSplit fsize (chunkSizeMb * 1024 * 1024) rows).length := by
  refine ⟨?_, runSplit_flatten fsize _ rows, runSplit_numbering fsize _ rows⟩
  have hE : ∃ z, estimate_rows_per_chunk totalSizeMb chunkSizeMb (header :: rows)
      = Except.ok z := by
    simp only [estimate_rows_per_chunk]
    split <;> exact ⟨_, rfl⟩
  obtain ⟨z, hz⟩ := hE
  simp only [split_csv_by_size, hz]

/-- C2: in size-probe mode no sealed chunk except possibly the final one
has fewer than 100 rows: the size test seals only at a positive multiple of
100 accumulated rows, and only when the chunk already holds at least 100
rows. -/
theorem size_probe_soft_floor (fsize : List Row → Nat) (targetBytes : ℚ)
    (rows : List Row) (c : Nat × List Row)
    (hc : c ∈ (runSplit fsize targetBytes rows).dropLast) :
    100 ≤ c.2.length := by
  have hall := foldl_splitStep_chunkLen fsize targetBytes rows initSplitState
    (by simp [initSplitState])
  have hmem : c ∈ (rows.foldl (splitStep fsize targetBytes) initSplitState).chunks := by
    simp only [runSplit] at hc
    set st := rows.foldl (splitStep fsize targetBytes) initSplitState with hst
    split at hc
    · exact (List.dropLast_sublist _).subset hc
    · rwa [List.dropLast_concat] at hc
  have h := hall c hmem
  exact Nat.le_of_dvd h.2 (Nat.dvd_of_mod_eq_zero h.1)

set_option maxRecDepth 40000 in
/-- Witness for C2: a run of 200 one-field rows with a 10-bytes-per-row
probe size and target 500 bytes seals two 100-row chunks; the first, a
non-final sealed chunk, has at least 100 rows. -/
theorem size_probe_soft_floor_witness :
    (1, List.replicate 100 (["a"] : Row)) ∈
        (runSplit (fun l => 10 * l.length) 500 (List.replicate 200 (["a"] : Row))).dropLast ∧
    100 ≤ ((1, List.replicate 100 (["a"] : Row)) : Nat × List Row).2.length :=
  ⟨by with_unfolding_all decide,
   size_probe_soft_floor (fun l => 10 * l.length) 500 (List.replicate 200 (["a"] : Row))
     (1, List.replicate 100 (["a"] : Row)) (by with_unfolding_all decide)⟩

/-- C10: every chunk sealed by the size test contains a row count that is
an exact positive multiple of 100, because the probe — and therefore
sealing — happens only when the accumulated row count is divisible by
100. -/
theorem size_sealed_multiple_of_100 (fsize : List Row → Nat) (targetBytes : ℚ)
    (rows : List Row) (c : Nat × List Row)
    (hc : c ∈ sizeSealedChunks fsize targetBytes rows) :
    c.2.length % 100 = 0 ∧ 0 < c.2.length :=
  foldl_splitStep_chunkLen fsize targetBytes rows initSplitState
    (by simp [initSplitState]) c hc

set_option maxRecDepth 40000 in
/-- Witness for C10: a run of 230 one-field rows with a 25-bytes-per-row
probe size and target 600 bytes seals chunks 1 and 2 by the size test;
chunk 2 holds exactly 100 rows, a positive multiple of 100. -/
theorem size_sealed_multiple_of_100_witness :
    (2, List.replicate 100 (["b"] : Row)) ∈
        sizeSealedChunks (fun l => 25 * l.length) 600 (List.replicate 230 (["b"] : Row)) ∧
    ((2, List.replicate 100 (["b"] : Row)) : Nat × List Row).2.length % 100 = 0 ∧
    0 < ((2, List.replicate 100 (["b"] : Row)) : Nat × List Row).2.length :=
  ⟨by with_unfolding_all decide,
   size_sealed_multiple_of_100 (fun l => 25 * l.length) 600
     (List.replicate 230 (["b"] : Row)) (2, List.replicate 100 (["b"] : Row))
     (by with_unfolding_all decide)⟩

/-- C9: a split run on a source file with a header row but zero data rows
produces zero chunk files without error, while a run on a source file with
no rows at all aborts fatally with the empty-source condition (raised by
the estimator's header read, before the main loop's own empty check). -/
theorem empty_source_behavior (fsize : List Row → Nat) (totalSizeMb chunkSizeMb : ℚ)
    (header : Row) :
    split_csv_by_size fsize totalSizeMb chunkSizeMb [header] = Except.ok [] ∧
    split_csv_by_size fsize totalSizeMb chunkSizeMb [] = Except.error "StopIteration" := by
  exact ⟨by with_unfolding_all rfl, rfl⟩

/-! ## Claims about the estimator -/

/-- C5 counterexample: on a 2 MB file with a header and 3 data rows and a
1 MB target, the code computes max(1, int(3 / 2 * 1)) = 1, while the
claimed formula max(1, round(3 / 2 * 1)) gives 2. -/
theorem estimator_round_counterexample :
    estimate_rows_per_chunk 2 1 (["h"] :: List.replicate 3 (["x"] : Row)) = Except.ok 1 ∧
    estimateSpecRound 2 1 3 = 2 ∧ (1 : ℤ) ≠ 2 := by
  refine ⟨by with_unfolding_all rfl, ?_, by decide⟩
  norm_num [estimateSpecRound, round_eq]

/-- C5 (amended): the estimator counts totalRows as all data rows excluding
the header in one full pass, and returns max(1, trunc(totalRows /
totalSizeInUnits * targetSize)) where trunc is Python int()'s truncation
toward zero — not rounding to nearest; if totalRows is 0 it returns 1. -/
theorem estimator_truncates (totalSizeMb targetSizeMb : ℚ) (header : Row)
    (dataRows : List Row) :
    estimate_rows_per_chunk totalSizeMb targetSizeMb (header :: dataRows)
      = Except.ok (if dataRows.length = 0 then 1
          else max 1 (pyTrunc ((dataRows.length : ℚ) / totalSizeMb * targetSizeMb))) := by
  simp only [estimate_rows_per_chunk, foldl_count_eq_length, Nat.zero_add]
  split <;> rfl

/-! ## Merger lemmas -/

lemma not_mem_dropCols_meta (df : Df) (name : String) (h : name ∈ metadataColumns) :
    name ∉ (dropCols df metadataColumns).cols := by
  intro hmem
  have h2 := (List.mem_filter.mp hmem).2
  rw [decide_eq_true_iff] at h2
  exact h2 h

lemma assignConst_not_mem (df : Df) (name v : String) (h : name ∉ df.cols) :
    assignConst df name v
      = { cols := df.cols ++ [name], rows := df.rows.map (fun r => r ++ [v]) } := by
  rw [assignConst, if_neg h]

lemma adjust_meta_eq (blobName containerName : String) (df : Df) :
    adjustBookkeeping true blobName containerName df
      = { cols := (dropCols df metadataColumns).cols
            ++ ["source_file", "source_path", "container_name"],
          rows := (dropCols df metadataColumns).rows.map
            (fun r => r ++ [basename blobName, blobName, containerName]) } := by
  have h1 : "source_file" ∉ (dropCols df metadataColumns).cols :=
    not_mem_dropCols_meta df _ (by simp [metadataColumns])
  have h2 : "source_path" ∉ (dropCols df metadataColumns).cols ++ ["source_file"] := by
    intro hmem
    rcases List.mem_append.mp hmem with h | h
    · exact not_mem_dropCols_meta df _ (by simp [metadataColumns]) h
    · exact absurd (List.mem_singleton.mp h) (by decide)
  have h3 : "container_name"
      ∉ ((dropCols df metadataColumns).cols ++ ["source_file"]) ++ ["source_path"] := by
    intro hmem
    rcases List.mem_append.mp hmem with h | h
    · rcases List.mem_append.mp h with h | h
      · exact not_mem_dropCols_meta df _ (by simp [metadataColumns]) h
      · exact absurd (List.mem_singleton.mp h) (by decide)
    · exact absurd (List.mem_singleton.mp h) (by decide)
  have e1 := assignConst_not_mem (dropCols df metadataColumns) "source_file"
    (basename blobName) h1
  have e2 := assignConst_not_mem
    ⟨(dropCols df metadataColumns).cols ++ ["source_file"],
     (dropCols df metadataColumns).rows.map (fun r => r ++ [basename blobName])⟩
    "source_path" blobName h2
  have e3 := assignConst_not_mem
    ⟨((dropCols df metadataColumns).cols ++ ["source_file"]) ++ ["source_path"],
     ((dropCols df metadataColumns).rows.map (fun r => r ++ [basename blobName])).map
       (fun r => r ++ [blobName])⟩
    "container_name" containerName h3
  simp only [adjustBookkeeping, if_true]
  rw [e1, e2, e3]
  simp [List.map_map, Function.comp_def, List.append_assoc]

lemma adjust_cols (addMeta : Bool) (blobName containerName : String) (df : Df) :
    (adjustBookkeeping addMeta blobName containerName df).cols
      = df.cols.filter (fun c => decide (c ∉ metadataColumns))
          ++ (if addMeta then ["source_file", "source_path", "container_name"] else []) := by
  cases addMeta
  · simp [adjustBookkeeping, dropCols]
  · rw [adjust_meta_eq]
    simp [dropCols]

/-! ## Claims about bookkeeping columns -/

/-- C4: bookkeeping-column adjustment is idempotent on the column set —
dropping the bookkeeping columns and (when metadata injection is enabled)
re-adding fresh ones, applied twice (with any blob names), yields the same
column list as applied once. -/
theorem bookkeeping_idempotent (addMeta : Bool) (bn cn bn2 cn2 : String) (df : Df) :
    (adjustBookkeeping addMeta bn2 cn2 (adjustBookkeeping addMeta bn cn df)).cols
      = (adjustBookkeeping addMeta bn cn df).cols := by
  rw [adjust_cols, adjust_cols]
  have htail : (if addMeta then ["source_file", "source_path", "container_name"]
      else ([] : List String)).filter (fun c => decide (c ∉ metadataColumns)) = [] := by
    cases addMeta <;> simp [metadataColumns]
  rw [List.filter_append, htail, List.filter_filter]
  simp

/-- C6 counterexample: with base path "output/", blob "output/exp1/a.csv"
in container "cont", metadata injection stores under source_path the full
blob name "output/exp1/a.csv", which differs from the path relative to the
scope root, "exp1/a.csv", as the claim states it. -/
theorem source_path_counterexample :
    (adjustBookkeeping true "output/exp1/a.csv" "cont" ⟨["c"], [["v"]]⟩).cols
        = ["c", "source_file", "source_path", "container_name"] ∧
    (adjustBookkeeping true "output/exp1/a.csv" "cont" ⟨["c"], [["v"]]⟩).rows
        = [["v", "a.csv", "output/exp1/a.csv", "cont"]] ∧
    relToScopeRoot "output/" "output/exp1/a.csv" = "exp1/a.csv" ∧
    ("output/exp1/a.csv" : String) ≠ "exp1/a.csv" := by
  refine ⟨by decide, by decide, by decide, by decide⟩

/-- C6 (amended): with metadata injection enabled, every successfully read
file gains a source_file column holding the blob's basename, a source_path
column holding the blob's full path within the container (not the path
relative to the base path), and a container_name column holding the source
container's name, appended in that order to the non-bookkeeping columns. -/
theorem metadata_injection_values (blobName containerName : String) (df : Df) :
    (adjustBookkeeping true blobName containerName df).cols
        = (dropCols df metadataColumns).cols
            ++ ["source_file", "source_path", "container_name"] ∧
    (adjustBookkeeping true blobName containerName df).rows
        = (dropCols df metadataColumns).rows.map
            (fun r => r ++ [basename blobName, blobName, containerName]) := by
  rw [adjust_meta_eq]
  exact ⟨rfl, rfl⟩

/-! ## Classifier lemmas and claim -/

lemma classify_foldl (pat : String) :
    ∀ (files : List String) (t o : List String),
      files.foldl
          (fun acc n =>
            if isTruthFile pat n then (acc.1 ++ [n], acc.2) else (acc.1, acc.2 ++ [n]))
          (t, o)
        = (t ++ files.filter (isTruthFile pat),
           o ++ files.filter (fun n => !isTruthFile pat n))
  | [], t, o => by simp
  | f :: files, t, o => by
    by_cases h : isTruthFile pat f
    · rw [List.foldl_cons, if_pos h, classify_foldl pat files]
      simp [List.filter_cons, h, List.append_assoc]
    · rw [List.foldl_cons, if_neg h, classify_foldl pat files]
      simp only [Bool.not_eq_true] at h
      simp [List.filter_cons, h, List.append_assoc]

lemma classify_eq_filter (pat : String) (files : List String) :
    classify pat files
      = (files.filter (isTruthFile pat), files.filter (fun n => !isTruthFile pat n)) := by
  rw [classify, classify_foldl pat files [] []]
  simp

/-- C3: for every enumerated file set and marker pattern, classification
produces two groups, the truth group being exactly the files whose
basename contains the marker as a case-insensitive substring and the other
group being exactly the rest; the groups are disjoint and together they
are a permutation of the whole set. -/
theorem classifier_partition (pat : String) (files : List String) :
    (classify pat files).1 = files.filter (isTruthFile pat) ∧
    (classify pat files).2 = files.filter (fun n => !isTruthFile pat n) ∧
    (∀ f, f ∈ (classify pat files).1 ↔ f ∈ files ∧
        List.IsInfix (strToLower pat).data (strToLower (basename f)).data) ∧
    (∀ f, f ∈ (classify pat files).2 ↔ f ∈ files ∧
        ¬ List.IsInfix (strToLower pat).data (strToLower (basename f)).data) ∧
    (∀ f, f ∈ (classify pat files).1 → f ∈ (classify pat files).2 → False) ∧
    List.Perm ((classify pat files).1 ++ (classify pat files).2) files := by
  rw [classify_eq_filter]
  refine ⟨rfl, rfl, ?_, ?_, ?_, List.filter_append_perm _ files⟩
  · intro f
    simp [List.mem_filter, isTruthFile]
  · intro f
    simp [List.mem_filter, isTruthFile]
  · intro f h1 h2
    have b1 := (List.mem_filter.mp h1).2
    have b2 := (List.mem_filter.mp h2).2
    rw [b1] at b2
    exact absurd b2 (by simp)

/-- Witness for C3: on the spec's example set, the theorem instantiates to
give the truth group, the other group, and their disjointness at the file
a_truth.csv. -/
theorem classifier_partition_witness :
    (classify "truth" ["dir/a_truth.csv", "dir/B.csv", "ground_truth_TEST.csv"]).1
        = ["dir/a_truth.csv", "ground_truth_TEST.csv"] ∧
    (classify "truth" ["dir/a_truth.csv", "dir/B.csv", "ground_truth_TEST.csv"]).2
        = ["dir/B.csv"] ∧
    ("dir/a_truth.csv"
        ∈ (classify "truth" ["dir/a_truth.csv", "dir/B.csv", "ground_truth_TEST.csv"]).1 →
      "dir/a_truth.csv"
        ∈ (classify "truth" ["dir/a_truth.csv", "dir/B.csv", "ground_truth_TEST.csv"]).2 →
      False) := by
  refine ⟨by decide, by decide, ?_⟩
  exact (classifier_partition "truth"
    ["dir/a_truth.csv", "dir/B.csv", "ground_truth_TEST.csv"]).2.2.2.2.1 "dir/a_truth.csv"

/-! ## Aggregation lemmas and claims -/

lemma merge_foldl (addMeta : Bool) (cn : String) :
    ∀ (blobs : List BlobRead) (a : List Df) (b : List String) (c : List (String × String)),
      blobs.foldl (mergeStep addMeta cn) (a, b, c)
        = (a ++ okAdjusted addMeta cn blobs, b ++ okNames blobs, c ++ failedFiles blobs)
  | [], a, b, c => by simp [okAdjusted, okNames, failedFiles]
  | (n, .ok df) :: blobs, a, b, c => by
    rw [List.foldl_cons]
    show List.foldl (mergeStep addMeta cn)
      (a ++ [adjustBookkeeping addMeta n cn df], b ++ [n], c) blobs = _
    rw [merge_foldl addMeta cn blobs]
    simp [okAdjusted, okNames, failedFiles, List.filterMap_cons, List.append_assoc]
  | (n, .error e) :: blobs, a, b, c => by
    rw [List.foldl_cons]
    show List.foldl (mergeStep addMeta cn) (a, b, c ++ [(n, e)]) blobs = _
    rw [merge_foldl addMeta cn blobs]
    simp [okAdjusted, okNames, failedFiles, List.filterMap_cons, List.append_assoc]

lemma okNames_failedFiles_length :
    ∀ blobs : List BlobRead, (okNames blobs).length + (failedFiles blobs).length = blobs.length
  | [] => rfl
  | (n, .ok df) :: blobs => by
    have h := okNames_failedFiles_length blobs
    simp only [okNames, failedFiles, List.filterMap_cons] at *
    simp only [List.length_cons, List.length]
    omega
  | (n, .error e) :: blobs => by
    have h := okNames_failedFiles_length blobs
    simp only [okNames, failedFiles, List.filterMap_cons] at *
    simp only [List.length_cons, List.length]
    omega

/-- C7: aggregation with partial failures does not abort: the merge of a
group equals the concatenation of the adjusted tables of exactly the
successfully read files in enumeration order (none when all fail), the
successes and failures are recorded per file, their counts add up to the
whole group, and the aggregate's rows are the per-file rows in file order,
each reindexed to the union columns. -/
theorem partial_failure_isolation (addMeta : Bool) (containerName : String)
    (blobs : List BlobRead) :
    merge_blobs addMeta containerName blobs
        = (if (okAdjusted addMeta containerName blobs).isEmpty then none
           else some (pdConcat (okAdjusted addMeta containerName blobs)),
           okNames blobs, failedFiles blobs) ∧
    (okNames blobs).length + (failedFiles blobs).length = blobs.length ∧
    (pdConcat (okAdjusted addMeta containerName blobs)).rows
        = ((okAdjusted addMeta containerName blobs).map
            (fun d => d.rows.map
              (alignRow (colsUnion (okAdjusted addMeta containerName blobs)) d.cols))).flatten := by
  refine ⟨?_, okNames_failedFiles_length blobs, rfl⟩
  rw [merge_blobs, merge_foldl addMeta containerName blobs [] [] []]
  simp

/-! ## Enumeration filter lemmas and claim -/

lemma blobKept_some_eq (basePath : String) (subs : List String) (includeRoot : Bool)
    (name : String) :
    blobKept basePath (some subs) includeRoot name
      = ((includeRoot && !strHasChar (relPath basePath name) '/')
          || subs.any (fun sub =>
               strStartsWith (relPath basePath name) (stripSlashes sub ++ "/"))) := by
  simp only [blobKept]
  cases hc : (includeRoot && !strHasChar (relPath basePath name) '/')
  · rw [if_neg (by simp [hc])]
    simp
  · rw [if_pos (by simp [hc])]
    simp

/-- C8: with a subfolder allow-list, an enumerated CSV blob is kept if and
only if includeRoot is set and its path relative to the base path contains
no further '/' separator, or its relative path begins with an allow-listed
subfolder name (normalized by stripping '/' from its ends) followed by
'/'; with no allow-list every enumerated CSV blob is kept, regardless of
the includeRoot flag. -/
theorem subfolder_filter_semantics (basePath : String) (subs : List String)
    (includeRoot : Bool) (name : String) (csvBlobs : List String) :
    (name ∈ filterBlobs basePath (some subs) includeRoot csvBlobs ↔
      name ∈ csvBlobs ∧
        ((includeRoot = true ∧ strHasChar (relPath basePath name) '/' = false) ∨
          ∃ sub ∈ subs,
            strStartsWith (relPath basePath name) (stripSlashes sub ++ "/") = true)) ∧
    (∀ ir : Bool, filterBlobs basePath none ir csvBlobs = csvBlobs) := by
  constructor
  · rw [filterBlobs, List.mem_filter, blobKept_some_eq]
    simp [List.any_eq_true, Bool.and_eq_true, Bool.not_eq_true']
  · intro ir
    rw [filterBlobs, List.filter_eq_self]
    intro a _
    rfl
